import Mathlib

/-!
Verification of the NV-Line-Agent research workflow core.

Python strings are modelled as `List Char` (named `Str` below); Python
slicing `s[:n]` is `List.take`, concatenation is `++`, and `str.rfind`
of a two-character pattern is `rfind2` built on `lastMatch`.  Fallible
collaborator calls (the inference service, the storage client) are
modelled as explicit `Except`-valued function parameters; a raised
exception is the `Except.error` case.  Python `dict`s that are built by
first-seen insertion are modelled as association lists in insertion
order.
-/

namespace NVLineAgent

/-- Python strings as lists of characters. -/
abbrev Str := List Char

/-- Greatest `i < n` with `p i = true`, as an `Int`, or `-1` when there is
none.  This is the semantics of Python's `str.rfind` restricted to a
predicate on start positions. -/
def lastMatch (p : Nat → Bool) : Nat → Int
  | 0 => -1
  | n + 1 => if p n then ((n : Nat) : Int) else lastMatch p n

theorem lastMatch_eq_neg_one {p : Nat → Bool} {n : Nat} (h : lastMatch p n = -1) :
    ∀ i, i < n → p i = false := by
  induction n with
  | zero => intro i hi; omega
  | succ n ih =>
    intro i hi
    by_cases hp : p n = true
    · simp [lastMatch, hp] at h
    · simp only [Bool.not_eq_true] at hp
      simp [lastMatch, hp] at h
      rcases Nat.lt_succ_iff_lt_or_eq.mp hi with hlt | rfl
      · exact ih h i hlt
      · exact hp

theorem lastMatch_lt (p : Nat → Bool) (n : Nat) : lastMatch p n < (n : Int) := by
  induction n with
  | zero => simp [lastMatch]
  | succ n ih =>
    by_cases hp : p n = true
    · simp [lastMatch, hp]
    · simp only [Bool.not_eq_true] at hp
      simp only [lastMatch, hp, Bool.false_eq_true, if_false]
      have : ((n : Nat) : Int) < ((n + 1 : Nat) : Int) := by push_cast; omega
      exact lt_trans ih this

theorem lastMatch_ge {p : Nat → Bool} {n i : Nat} (hi : i < n) (hp : p i = true) :
    (i : Int) ≤ lastMatch p n := by
  induction n with
  | zero => omega
  | succ n ih =>
    rcases Nat.lt_succ_iff_lt_or_eq.mp hi with hlt | rfl
    · by_cases hq : p n = true
      · simp only [lastMatch, hq, if_true]
        omega
      · simp only [Bool.not_eq_true] at hq
        simp only [lastMatch, hq, Bool.false_eq_true, if_false]
        exact ih hlt
    · simp [lastMatch, hp]

theorem lastMatch_mem {p : Nat → Bool} {n : Nat} (h : 0 ≤ lastMatch p n) :
    p (lastMatch p n).toNat = true ∧ (lastMatch p n).toNat < n := by
  induction n with
  | zero => simp [lastMatch] at h
  | succ n ih =>
    by_cases hp : p n = true
    · simp [lastMatch, hp]
    · simp only [Bool.not_eq_true] at hp
      simp only [lastMatch, hp, Bool.false_eq_true, if_false] at h ⊢
      refine ⟨(ih h).1, ?_⟩
      have := (ih h).2
      omega

/-- Python `s.rfind(a + b)` for a two-character pattern `a, b`: the index
of the last occurrence, or `-1` when the pattern does not occur. -/
def rfind2 (a b : Char) (s : Str) : Int :=
  lastMatch (fun i => decide (i + 1 < s.length ∧ s.getD i ' ' = a ∧ s.getD (i + 1) ' ' = b)) s.length

/-- Position `i` of `s` starts one of the sentence boundaries `". "`,
`"! "`, `"? "` that `truncate_content_by_tokens` searches for. -/
def sentenceBoundaryAt (s : Str) (i : Nat) : Prop :=
  i + 1 < s.length ∧
    (s.getD i ' ' = '.' ∨ s.getD i ' ' = '!' ∨ s.getD i ' ' = '?') ∧
    s.getD (i + 1) ' ' = ' '

instance (s : Str) (i : Nat) : Decidable (sentenceBoundaryAt s i) := by
  unfold sentenceBoundaryAt; infer_instance

/-- Embedding of `truncate_content_by_tokens` from `src/helper/utils.py`
(the Python default for `max_tokens` is 6000; Lean callers pass it
explicitly).  The float comparison `last_sentence_end > max_chars * 0.8`
is modelled exactly over the rationals as `4 * max_chars < 5 * last`. -/
def truncate_content_by_tokens (content : Str) (max_tokens : Nat) : Str :=
  let max_chars := max_tokens * 4
  if content.length ≤ max_chars then
    content
  else
    let truncated := content.take max_chars
    let last_period := rfind2 '.' ' ' truncated
    let last_exclamation := rfind2 '!' ' ' truncated
    let last_question := rfind2 '?' ' ' truncated
    let last_sentence_end := max (max last_period last_exclamation) last_question
    if 4 * (max_chars : Int) < 5 * last_sentence_end then
      truncated.take (last_sentence_end.toNat + 1)
    else
      truncated ++ ('.' :: '.' :: '.' :: [])

theorem truncate_id_of_le {content : Str} {max_tokens : Nat}
    (h : content.length ≤ max_tokens * 4) :
    truncate_content_by_tokens content max_tokens = content := by
  simp [truncate_content_by_tokens, h]

/-- identity of the sentence-boundary predicate with the union of the
three `rfind2` predicates used by the source. -/
theorem sentenceBoundaryAt_iff (s : Str) (i : Nat) :
    sentenceBoundaryAt s i ↔
      ((decide (i + 1 < s.length ∧ s.getD i ' ' = '.' ∧ s.getD (i + 1) ' ' = ' ') = true) ∨
       (decide (i + 1 < s.length ∧ s.getD i ' ' = '!' ∧ s.getD (i + 1) ' ' = ' ') = true) ∨
       (decide (i + 1 < s.length ∧ s.getD i ' ' = '?' ∧ s.getD (i + 1) ' ' = ' ') = true)) := by
  simp only [decide_eq_true_eq, sentenceBoundaryAt]
  tauto

theorem boundary_le_lastSentenceEnd {s : Str} {q : Nat} (hb : sentenceBoundaryAt s q) :
    (q : Int) ≤ max (max (rfind2 '.' ' ' s) (rfind2 '!' ' ' s)) (rfind2 '?' ' ' s) := by
  have hq : q < s.length := by have := hb.1; omega
  rcases (sentenceBoundaryAt_iff s q).mp hb with h1 | h2 | h3
  · exact le_trans (le_trans (lastMatch_ge hq h1) (le_max_left _ _)) (le_max_left _ _)
  · exact le_trans (le_trans (lastMatch_ge hq h2) (le_max_right _ _)) (le_max_left _ _)
  · exact le_trans (lastMatch_ge hq h3) (le_max_right _ _)

theorem lastSentenceEnd_boundary {s : Str}
    (h : 0 ≤ max (max (rfind2 '.' ' ' s) (rfind2 '!' ' ' s)) (rfind2 '?' ' ' s)) :
    sentenceBoundaryAt s
      (max (max (rfind2 '.' ' ' s) (rfind2 '!' ' ' s)) (rfind2 '?' ' ' s)).toNat := by
  rcases max_choice (max (rfind2 '.' ' ' s) (rfind2 '!' ' ' s)) (rfind2 '?' ' ' s) with hm | hm
  · rcases max_choice (rfind2 '.' ' ' s) (rfind2 '!' ' ' s) with hm2 | hm2
    · rw [hm, hm2] at h ⊢
      have hmem := lastMatch_mem h
      simp only [decide_eq_true_eq] at hmem
      exact ⟨hmem.1.1, Or.inl hmem.1.2.1, hmem.1.2.2⟩
    · rw [hm, hm2] at h ⊢
      have hmem := lastMatch_mem h
      simp only [decide_eq_true_eq] at hmem
      exact ⟨hmem.1.1, Or.inr (Or.inl hmem.1.2.1), hmem.1.2.2⟩
  · rw [hm] at h ⊢
    have hmem := lastMatch_mem h
    simp only [decide_eq_true_eq] at hmem
    exact ⟨hmem.1.1, Or.inr (Or.inr hmem.1.2.1), hmem.1.2.2⟩

theorem truncate_eq_of_gt {content : Str} {max_tokens : Nat}
    (h : max_tokens * 4 < content.length) :
    truncate_content_by_tokens content max_tokens =
      (if 4 * ((max_tokens * 4 : Nat) : Int) <
          5 * (max (max (rfind2 '.' ' ' (content.take (max_tokens * 4)))
                        (rfind2 '!' ' ' (content.take (max_tokens * 4))))
                   (rfind2 '?' ' ' (content.take (max_tokens * 4)))) then
        (content.take (max_tokens * 4)).take
          ((max (max (rfind2 '.' ' ' (content.take (max_tokens * 4)))
                     (rfind2 '!' ' ' (content.take (max_tokens * 4))))
                (rfind2 '?' ' ' (content.take (max_tokens * 4)))).toNat + 1)
      else
        (content.take (max_tokens * 4)) ++ ('.' :: '.' :: '.' :: [])) := by
  have hnot : ¬ content.length ≤ max_tokens * 4 := by omega
  simp only [truncate_content_by_tokens, hnot, if_false]

/-- Claim C3, counterexample to the claim as stated: on a five-character
input with token budget 1 the code falls into the ellipsis branch and
returns seven characters, exceeding the claimed `max_tokens * 4` bound. -/
theorem truncate_budget_counterexample :
    ¬ ((truncate_content_by_tokens ('a' :: 'a' :: 'a' :: 'a' :: 'a' :: []) 1).length ≤ 1 * 4) := by
  decide

/-- Claim C3 (amended): for content longer than the `max_tokens * 4`
window, the result has at most `max_tokens * 4 + 3` characters (the hard
truncation appends a three-character ellipsis), and whenever a sentence
boundary occurs strictly past the 80 percent mark of the window the
result is the window cut exactly after the last such boundary, and then
stays within `max_tokens * 4` characters. -/
theorem truncate_over_budget (content : Str) (max_tokens : Nat)
    (h : max_tokens * 4 < content.length) :
    (truncate_content_by_tokens content max_tokens).length ≤ max_tokens * 4 + 3 ∧
    (∀ p, sentenceBoundaryAt (content.take (max_tokens * 4)) p →
        4 * (max_tokens * 4) < 5 * p →
      ∃ L, sentenceBoundaryAt (content.take (max_tokens * 4)) L ∧
        4 * (max_tokens * 4) < 5 * L ∧
        (∀ q, sentenceBoundaryAt (content.take (max_tokens * 4)) q → q ≤ L) ∧
        truncate_content_by_tokens content max_tokens =
          (content.take (max_tokens * 4)).take (L + 1) ∧
        (truncate_content_by_tokens content max_tokens).length ≤ max_tokens * 4) := by
  have hlen_t : (content.take (max_tokens * 4)).length = max_tokens * 4 := by
    rw [List.length_take]; omega
  rw [truncate_eq_of_gt h]
  set t := content.take (max_tokens * 4) with ht
  set L := max (max (rfind2 '.' ' ' t) (rfind2 '!' ' ' t)) (rfind2 '?' ' ' t) with hL
  by_cases hcond : 4 * ((max_tokens * 4 : Nat) : Int) < 5 * L
  · rw [if_pos hcond]
    have hmc0 : (0 : Int) ≤ ((max_tokens * 4 : Nat) : Int) := by positivity
    have h0 : 0 ≤ L := by omega
    have hb := lastSentenceEnd_boundary (s := t) (by rw [← hL]; exact h0)
    rw [← hL] at hb
    constructor
    · rw [List.length_take]; omega
    · intro p hbp hgt
      refine ⟨L.toNat, hb, by omega, ?_, rfl, by rw [List.length_take]; omega⟩
      intro q hq
      have hle := boundary_le_lastSentenceEnd hq
      rw [← hL] at hle
      omega
  · rw [if_neg hcond]
    constructor
    · simp only [List.length_append, hlen_t, List.length_cons, List.length_nil]
      omega
    · intro p hbp hgt
      exfalso
      have hle := boundary_le_lastSentenceEnd hbp
      rw [← hL] at hle
      omega

/-- Witness for the amended claim C3 at content "aaaaa", budget 1. -/
theorem truncate_over_budget_witness :
    (truncate_content_by_tokens ('a' :: 'a' :: 'a' :: 'a' :: 'a' :: []) 1).length ≤ 1 * 4 + 3 :=
  (truncate_over_budget ('a' :: 'a' :: 'a' :: 'a' :: 'a' :: []) 1 (by decide)).1

/-- Claim C8: for content within the character budget, truncation is the
identity. -/
theorem truncate_noop (content : Str) (max_tokens : Nat)
    (h : content.length ≤ max_tokens * 4) :
    truncate_content_by_tokens content max_tokens = content :=
  truncate_id_of_le h

/-- Witness for claim C8 at content "hi", budget 6000 tokens. -/
theorem truncate_noop_witness :
    truncate_content_by_tokens ('h' :: 'i' :: []) 6000 = ('h' :: 'i' :: []) :=
  truncate_noop ('h' :: 'i' :: []) 6000 (by decide)

/-- One entry of a Tavily response's `results` list, as consumed by
`src/helper/utils.py` (`url`, `title`, `content`, optional
`raw_content`). -/
structure SearchResult where
  url : Str
  title : Str
  content : Str
  raw_content : Option Str
deriving DecidableEq

/-- One Tavily response: the fields of the response dictionary that the
pipeline reads (`response['results']`). -/
structure SearchResponse where
  results : List SearchResult
deriving DecidableEq

/-- The body of the `for result in response['results']` loop of
`deduplicate_search_results`: insert under `result['url']` only when the
key is not already present.  Python dict insertion appends new keys, so
the association list grows at the tail. -/
def dedupInsert (acc : List (Str × SearchResult)) (r : SearchResult) :
    List (Str × SearchResult) :=
  if r.url ∈ acc.map Prod.fst then acc else acc ++ [(r.url, r)]

/-- Embedding of `deduplicate_search_results` from `src/helper/utils.py`;
the returned Python dict is an association list in insertion order. -/
def deduplicate_search_results (search_results : List SearchResponse) :
    List (Str × SearchResult) :=
  search_results.foldl (fun acc response => response.results.foldl dedupInsert acc) []

/-- Lookup in an association list: Python `d[u]` / `u in d`. -/
def lookupA (l : List (Str × SearchResult)) (u : Str) : Option SearchResult :=
  (l.find? (fun p => decide (p.1 = u))).map Prod.snd

theorem lookupA_nil (u : Str) : lookupA [] u = none := rfl

theorem lookupA_cons (p : Str × SearchResult) (l : List (Str × SearchResult)) (u : Str) :
    lookupA (p :: l) u = if p.1 = u then some p.2 else lookupA l u := by
  by_cases hp : p.1 = u
  · simp [lookupA, List.find?, hp]
  · simp [lookupA, List.find?, hp]

theorem lookupA_append (l₁ l₂ : List (Str × SearchResult)) (u : Str) :
    lookupA (l₁ ++ l₂) u =
      match lookupA l₁ u with
      | some v => some v
      | none => lookupA l₂ u := by
  induction l₁ with
  | nil => simp [lookupA_nil]
  | cons p l₁ ih =>
    rw [List.cons_append, lookupA_cons, lookupA_cons, ih]
    by_cases hp : p.1 = u
    · simp [hp]
    · simp [hp]

theorem lookupA_isSome_iff (l : List (Str × SearchResult)) (u : Str) :
    (lookupA l u).isSome = true ↔ u ∈ l.map Prod.fst := by
  induction l with
  | nil => simp [lookupA_nil]
  | cons p l ih =>
    rw [lookupA_cons]
    by_cases hp : p.1 = u
    · rw [if_pos hp]
      simp only [Option.isSome_some, List.map_cons, List.mem_cons, true_iff]
      exact Or.inl hp.symm
    · simp only [hp, if_false, List.map_cons, List.mem_cons]
      rw [ih]
      constructor
      · exact Or.inr
      · rintro (h | h)
        · exact absurd h.symm hp
        · exact h

theorem lookupA_dedupInsert (acc : List (Str × SearchResult)) (r : SearchResult) (u : Str) :
    lookupA (dedupInsert acc r) u =
      match lookupA acc u with
      | some v => some v
      | none => if r.url = u then some r else none := by
  unfold dedupInsert
  by_cases hm : r.url ∈ acc.map Prod.fst
  · rw [if_pos hm]
    cases hv : lookupA acc u with
    | some v => simp [hv]
    | none =>
      simp only [hv]
      by_cases hru : r.url = u
      · exfalso
        rw [hru] at hm
        rw [← lookupA_isSome_iff] at hm
        rw [hv] at hm
        simp at hm
      · simp [hru]
  · rw [if_neg hm, lookupA_append]
    cases hv : lookupA acc u with
    | some v => simp
    | none =>
      simp only
      by_cases hru : r.url = u
      · simp [lookupA, List.find?, hru]
      · simp [lookupA, List.find?, hru]

theorem lookupA_foldl (l : List SearchResult) (acc : List (Str × SearchResult)) (u : Str) :
    lookupA (l.foldl dedupInsert acc) u =
      match lookupA acc u with
      | some v => some v
      | none => l.find? (fun x => decide (x.url = u)) := by
  induction l generalizing acc with
  | nil => cases hv : lookupA acc u <;> simp [hv, List.find?]
  | cons r l ih =>
    rw [List.foldl_cons, ih, lookupA_dedupInsert]
    cases hv : lookupA acc u with
    | some v => simp
    | none =>
      simp only
      by_cases hru : r.url = u
      · simp [List.find?, hru]
      · simp [List.find?, hru]

theorem keys_dedupInsert_nodup {acc : List (Str × SearchResult)} {r : SearchResult}
    (h : (acc.map Prod.fst).Nodup) : ((dedupInsert acc r).map Prod.fst).Nodup := by
  unfold dedupInsert
  by_cases hm : r.url ∈ acc.map Prod.fst
  · rw [if_pos hm]; exact h
  · rw [if_neg hm]
    rw [List.map_append]
    rw [List.nodup_append]
    refine ⟨h, List.nodup_singleton _, ?_⟩
    intro x hx hmem
    simp only [List.map_cons, List.map_nil, List.mem_singleton] at hmem
    subst hmem
    exact hm hx

theorem keys_foldl_nodup (l : List SearchResult) (acc : List (Str × SearchResult))
    (h : (acc.map Prod.fst).Nodup) :
    (((l.foldl dedupInsert acc)).map Prod.fst).Nodup := by
  induction l generalizing acc with
  | nil => exact h
  | cons r l ih => exact ih (dedupInsert acc r) (keys_dedupInsert_nodup h)

theorem dedup_eq_foldl_flatten (rs : List SearchResponse) :
    deduplicate_search_results rs = (rs.flatMap (fun resp => resp.results)).foldl dedupInsert [] := by
  unfold deduplicate_search_results
  generalize ([] : List (Str × SearchResult)) = acc
  induction rs generalizing acc with
  | nil => simp
  | cons resp rs ih =>
    rw [List.flatMap_cons, List.foldl_append, List.foldl_cons, ih]

/-- Claim C1: the deduplicated mapping has pairwise-distinct url keys,
and looking up any url yields exactly the first result carrying that url
in the scan order (responses in list order, results in provider order),
or nothing when the url never occurs; later duplicates are dropped. -/
theorem dedup_first_seen (rs : List SearchResponse) :
    ((deduplicate_search_results rs).map Prod.fst).Nodup ∧
    (∀ u : Str,
      lookupA (deduplicate_search_results rs) u =
        (rs.flatMap (fun resp => resp.results)).find? (fun x => decide (x.url = u))) ∧
    (∀ u : Str,
      u ∈ (deduplicate_search_results rs).map Prod.fst ↔
        ∃ r ∈ rs.flatMap (fun resp => resp.results), r.url = u) := by
  rw [dedup_eq_foldl_flatten]
  refine ⟨keys_foldl_nodup _ _ (by simp), ?_, ?_⟩
  · intro u
    rw [lookupA_foldl, lookupA_nil]
  · intro u
    rw [← lookupA_isSome_iff, lookupA_foldl, lookupA_nil]
    simp only [List.find?_isSome, decide_eq_true_eq]

theorem truncate_length_le (content : Str) (max_tokens : Nat) :
    (truncate_content_by_tokens content max_tokens).length ≤ max_tokens * 4 + 3 := by
  by_cases h : content.length ≤ max_tokens * 4
  · rw [truncate_id_of_le h]; omega
  · have h' : max_tokens * 4 < content.length := by omega
    have hlen_t : (content.take (max_tokens * 4)).length = max_tokens * 4 := by
      rw [List.length_take]; omega
    rw [truncate_eq_of_gt h']
    by_cases hcond : 4 * ((max_tokens * 4 : Nat) : Int) <
        5 * (max (max (rfind2 '.' ' ' (content.take (max_tokens * 4)))
                      (rfind2 '!' ' ' (content.take (max_tokens * 4))))
                 (rfind2 '?' ' ' (content.take (max_tokens * 4))))
    · rw [if_pos hcond, List.length_take]; omega
    · rw [if_neg hcond]
      simp only [List.length_append, hlen_t, List.length_cons, List.length_nil]
      omega

/-- Structured summary schema consumed by `summarize_webpage_content`;
its fields are the two read at the use site (`summary.summary` and
`summary.key_excerpts`). -/
structure Summary where
  summary : Str
  key_excerpts : Str
deriving DecidableEq

/-- Modelled from the spec: the prompt template module `helper/prompts.py`
is not among the sources; per the spec the summarization prompt just
interpolates the (already truncated) webpage content and the date, which
is modelled as plain concatenation.  No claim depends on the template
text itself. -/
def summarize_webpage_prompt_format (webpage_content date : Str) : Str :=
  webpage_content ++ '\n' :: date

/-- Token budget passed by `summarize_webpage_content` to
`truncate_content_by_tokens` (`max_tokens=100000` at the call site). -/
def summarization_max_tokens : Nat := 100000

/-- The truncation stage of `summarize_webpage_content`:
`truncate_content_by_tokens(webpage_content, max_tokens=100000)`. -/
def summarization_truncated_content (webpage_content : Str) : Str :=
  truncate_content_by_tokens webpage_content summarization_max_tokens

/-- The summary formatting in `summarize_webpage_content`
(`<summary>...</summary>` and `<key_excerpts>...</key_excerpts>`). -/
def format_summary (s : Summary) : Str :=
  ("<summary>\n").data ++ s.summary ++ ("\n</summary>\n\n<key_excerpts>\n").data ++
    s.key_excerpts ++ ("\n</key_excerpts>").data

/-- Embedding of `summarize_webpage_content` from `src/helper/utils.py`.
The structured-output inference call is the collaborator `invoke`; a
raised exception is the `Except.error` case, handled by the function's
`except` clause, which mirrors the Python conditional expression
`content[:1000] + "..." if len(content) > 1000 else content`. -/
def summarize_webpage_content (invoke : Str → Except Str Summary) (today : Str)
    (webpage_content : Str) : Str :=
  match invoke (summarize_webpage_prompt_format
      (summarization_truncated_content webpage_content) today) with
  | Except.ok summary => format_summary summary
  | Except.error _ =>
      if 1000 < webpage_content.length then
        webpage_content.take 1000 ++ ('.' :: '.' :: '.' :: [])
      else
        webpage_content

/-- Claim C4, counterexample to the claim as stated: with a failing
inference service and the three-character input "abc", the function
returns "abc" unchanged, not the first 1000 characters followed by an
ellipsis. -/
theorem summarize_fallback_counterexample :
    summarize_webpage_content (fun _ => Except.error []) [] ('a' :: 'b' :: 'c' :: []) ≠
      ('a' :: 'b' :: 'c' :: []).take 1000 ++ ('.' :: '.' :: '.' :: []) := by
  decide

/-- Claim C4 (amended): when the inference call inside
`summarize_webpage_content` raises, the exception is not propagated; the
function returns the first 1000 characters of the raw content followed
by an ellipsis when the content exceeds 1000 characters, and the raw
content unchanged otherwise. -/
theorem summarize_error_fallback (invoke : Str → Except Str Summary) (today : Str)
    (webpage_content : Str) (e : Str)
    (h : invoke (summarize_webpage_prompt_format
        (summarization_truncated_content webpage_content) today) = Except.error e) :
    summarize_webpage_content invoke today webpage_content =
      if 1000 < webpage_content.length then
        webpage_content.take 1000 ++ ('.' :: '.' :: '.' :: [])
      else
        webpage_content := by
  unfold summarize_webpage_content
  rw [h]

/-- Witness for the amended claim C4 with a constantly failing inference
service on the input "abc". -/
theorem summarize_error_fallback_witness :
    summarize_webpage_content (fun _ => Except.error []) [] ('a' :: 'b' :: 'c' :: []) =
      if 1000 < ('a' :: 'b' :: 'c' :: []).length then
        ('a' :: 'b' :: 'c' :: []).take 1000 ++ ('.' :: '.' :: '.' :: [])
      else
        ('a' :: 'b' :: 'c' :: []) :=
  summarize_error_fallback (fun _ => Except.error []) [] ('a' :: 'b' :: 'c' :: []) [] rfl

/-- Claim C7: the summarization step truncates its input at a budget of
100000 tokens, i.e. a 400000-character window at four characters per
token: within the window the input passes through unchanged, and beyond
it the truncated input stays within the window (plus the three-character
ellipsis of the hard-truncation branch). -/
theorem summarize_truncation_budget :
    summarization_max_tokens = 100000 ∧
    summarization_max_tokens * 4 = 400000 ∧
    (∀ c : Str, summarization_truncated_content c = truncate_content_by_tokens c 100000) ∧
    (∀ c : Str, c.length ≤ summarization_max_tokens * 4 →
      summarization_truncated_content c = c) ∧
    (∀ c : Str,
      (summarization_truncated_content c).length ≤ summarization_max_tokens * 4 + 3) :=
  ⟨rfl, rfl, fun _ => rfl, fun _ h => truncate_id_of_le h,
   fun c => truncate_length_le c summarization_max_tokens⟩

/-- Witness for claim C7 on the two-character input "hi". -/
theorem summarize_truncation_budget_witness :
    summarization_truncated_content ('h' :: 'i' :: []) = ('h' :: 'i' :: []) :=
  summarize_truncation_budget.2.2.2.1 ('h' :: 'i' :: []) (by decide)

/-- Embedding of `think_tool` from `src/helper/tools.py`: a pure function
of the reflection text. -/
def think_tool (reflection : Str) : Str :=
  ("Reflection recorded: ").data ++ reflection

/-- Claim C6, counterexample to the claim as stated: the tool result for
the reflection "x" is "Reflection recorded: x", which is not equal to
the input string. -/
theorem think_tool_counterexample : think_tool ('x' :: []) ≠ ('x' :: []) := by
  decide

/-- Claim C6 (amended): the tool result is the fixed prefix
"Reflection recorded: " followed by the passed-in reflection text
verbatim (dropping the 21-character prefix recovers the input exactly);
as a pure function of its argument it has no side effect on any other
state. -/
theorem think_tool_records (reflection : Str) :
    think_tool reflection = ("Reflection recorded: ").data ++ reflection ∧
    (think_tool reflection).drop 21 = reflection := by
  refine ⟨rfl, ?_⟩
  show (("Reflection recorded: ").data ++ reflection).drop 21 = reflection
  rw [show (21 : Nat) = ("Reflection recorded: ").data.length from rfl]
  exact List.drop_left _ _

/-- One value of the dict built by `process_search_results`
(`title` and processed `content`). -/
structure SummarizedEntry where
  title : Str
  content : Str
deriving DecidableEq

/-- The fixed sentinel returned by `format_search_output` for an empty
mapping. -/
def no_results_message : Str :=
  ("No valid search results found. Please try different search queries or use a different search API.").data

/-- One iteration of the formatting loop in `format_search_output`:
index header, URL line, summary block, and the 80-dash rule line. -/
def format_section (i : Nat) (url : Str) (entry : SummarizedEntry) : Str :=
  ("\n\n--- SOURCE ").data ++ (toString i).data ++ (": ").data ++ entry.title ++
    (" ---\n").data ++ ("URL: ").data ++ url ++ ("\n\n").data ++
    ("SUMMARY:\n").data ++ entry.content ++ ("\n\n").data ++
    List.replicate 80 '-' ++ ("\n").data

/-- The `enumerate(..., 1)` loop of `format_search_output`: one section
per entry, indices starting at 1. -/
def format_sections : Nat → List (Str × SummarizedEntry) → Str
  | _, [] => []
  | i, (url, entry) :: rest => format_section i url entry ++ format_sections (i + 1) rest

/-- Embedding of `format_search_output` from `src/helper/utils.py`. -/
def format_search_output (summarized_results : List (Str × SummarizedEntry)) : Str :=
  match summarized_results with
  | [] => no_results_message
  | _ :: _ => ("Search results: \n\n").data ++ format_sections 1 summarized_results

/-- Claim C5: the function returns the fixed no-results sentinel exactly
on the empty mapping; every non-empty mapping yields the formatted block
(header plus one 1-indexed section per source), which is never equal to
the sentinel, so callers can branch on the sentinel. -/
theorem format_search_output_sentinel :
    format_search_output [] = no_results_message ∧
    (∀ l : List (Str × SummarizedEntry), l ≠ [] →
      format_search_output l = ("Search results: \n\n").data ++ format_sections 1 l ∧
      format_search_output l ≠ no_results_message) := by
  refine ⟨rfl, ?_⟩
  intro l hl
  cases l with
  | nil => exact absurd rfl hl
  | cons x xs =>
    refine ⟨rfl, ?_⟩
    intro heq
    have h1 : (format_search_output (x :: xs)).head? = some 'S' := rfl
    rw [heq] at h1
    exact absurd h1 (by decide)

/-- Witness for claim C5 on a one-entry mapping. -/
theorem format_search_output_sentinel_witness :
    format_search_output (('u' :: [], SummarizedEntry.mk ('t' :: []) ('c' :: [])) :: []) ≠
      no_results_message :=
  (format_search_output_sentinel.2
    (('u' :: [], SummarizedEntry.mk ('t' :: []) ('c' :: [])) :: []) (by simp)).2

/-- Embedding of `process_search_results` from `src/helper/utils.py`:
`result.get("raw_content")` is falsy when absent or empty, in which case
the provider's short `content` is used, otherwise the raw content is
summarized. -/
def process_search_results (invoke : Str → Except Str Summary) (today : Str)
    (unique_results : List (Str × SearchResult)) : List (Str × SummarizedEntry) :=
  unique_results.map (fun p =>
    (p.1,
     SummarizedEntry.mk p.2.title
       (match p.2.raw_content with
        | none => p.2.content
        | some rc =>
            if rc.isEmpty then p.2.content
            else summarize_webpage_content invoke today rc)))

/-- Topic filters accepted by the Tavily search provider. -/
inductive Topic
  | general
  | news
  | finance
deriving DecidableEq

/-- One outbound call to the search provider, with every argument the
source passes to `tavily_client.search`. -/
structure ProviderCall where
  query : Str
  max_results : Nat
  topic : Topic
  include_raw_content : Bool
deriving DecidableEq

/-- Embedding of `tavily_search_multiple` from `src/helper/utils.py`
(Python defaults: `max_results=3`, `topic="general"`,
`include_raw_content=True`; Lean callers pass them explicitly).  The
provider is the collaborator `client`; the second component of the
result is the trace of provider calls issued by the loop, used to state
what the provider is called with. -/
def tavily_search_multiple (client : ProviderCall → SearchResponse)
    (search_queries : List Str) (max_results : Nat) (topic : Topic)
    (include_raw_content : Bool) : List SearchResponse × List ProviderCall :=
  search_queries.foldl
    (fun acc query =>
      let call := ProviderCall.mk query max_results topic include_raw_content
      (acc.1 ++ (client call :: []), acc.2 ++ (call :: [])))
    ([], [])

/-- Embedding of the public `tavily_search` tool from
`src/helper/tools.py`: a single query, `max_results=3`,
`topic="general"`, `include_raw_content=True`, then deduplication,
summarization and formatting. -/
def tavily_search (client : ProviderCall → SearchResponse)
    (invoke : Str → Except Str Summary) (today : Str) (query : Str) :
    Str × List ProviderCall :=
  let sr := tavily_search_multiple client (query :: []) 3 Topic.general true
  let unique_results := deduplicate_search_results sr.1
  let summarized_results := process_search_results invoke today unique_results
  (format_search_output summarized_results, sr.2)

/-- Claim C10: every invocation of the public `tavily_search` tool issues
exactly one provider call, for the given query with the fixed arguments
`max_results = 3`, topic `general` and raw content requested; the
formatted output is computed from that single response.  The public
interface exposes no way to vary the per-query limit or the topic. -/
theorem tavily_search_provider_call (client : ProviderCall → SearchResponse)
    (invoke : Str → Except Str Summary) (today : Str) (query : Str) :
    (tavily_search client invoke today query).2 =
      ProviderCall.mk query 3 Topic.general true :: [] ∧
    (tavily_search client invoke today query).1 =
      format_search_output (process_search_results invoke today
        (deduplicate_search_results
          (client (ProviderCall.mk query 3 Topic.general true) :: []))) :=
  ⟨rfl, rfl⟩

/-- Message roles as rendered by the scope phase. -/
inductive Role
  | user
  | assistant
deriving DecidableEq

/-- A role-tagged conversation message. -/
structure Message where
  role : Role
  content : Str
deriving DecidableEq

/-- Routing targets of the `clarify_with_user` node: the graph `END`
sentinel or the `write_research_brief` node. -/
inductive RouteTarget
  | END
  | write_research_brief
deriving DecidableEq

/-- The `Command` value returned by the node: where to go and which
messages to append to state. -/
structure Command where
  goto : RouteTarget
  update : List Message
deriving DecidableEq

/-- Structured output schema of the clarification decision, from
`src/helper/llm_output_schema_config.py`. -/
structure ClarifyWithUser where
  need_clarification : Bool
  question : Str
  verification : Str

/-- The scope-phase state: conversation plus the research brief, from
`src/helper/state_config.py`. -/
structure ResearchScopeState where
  messages : List Message
  research_brief : Str

/-- LangChain's `get_buffer_string` collaborator: renders the history as
one buffer string with role prefixes. -/
def get_buffer_string (messages : List Message) : Str :=
  messages.flatMap (fun m =>
    (match m.role with
     | Role.user => ("Human: ").data
     | Role.assistant => ("AI: ").data) ++ m.content ++ '\n' :: [])

/-- Modelled from the spec: the prompt template module `helper/prompts.py`
is not among the sources; per the spec the clarify prompt interpolates
the rendered conversation and the date, modelled as plain concatenation.
No claim depends on the template text itself. -/
def clarify_with_user_instructions_format (messages date : Str) : Str :=
  messages ++ '\n' :: date

/-- Embedding of `clarify_with_user` from `src/phases/research_scope.py`.
The structured-output inference call is the collaborator `invoke`. -/
def clarify_with_user (invoke : Str → ClarifyWithUser) (today : Str)
    (state : ResearchScopeState) : Command :=
  let response := invoke (clarify_with_user_instructions_format
    (get_buffer_string state.messages) today)
  if response.need_clarification then
    Command.mk RouteTarget.END (Message.mk Role.assistant response.question :: [])
  else
    Command.mk RouteTarget.write_research_brief
      (Message.mk Role.assistant response.verification :: [])

/-- Claim C2: when the decision needs clarification, the node appends the
question as an assistant message and routes to `END` — never to the
brief-writing node; otherwise it appends the verification as an
assistant message and routes to `write_research_brief`. -/
theorem clarify_branching (invoke : Str → ClarifyWithUser) (today : Str)
    (state : ResearchScopeState) :
    ((invoke (clarify_with_user_instructions_format
        (get_buffer_string state.messages) today)).need_clarification = true →
      (clarify_with_user invoke today state).goto = RouteTarget.END ∧
      (clarify_with_user invoke today state).goto ≠ RouteTarget.write_research_brief ∧
      (clarify_with_user invoke today state).update =
        Message.mk Role.assistant
          (invoke (clarify_with_user_instructions_format
            (get_buffer_string state.messages) today)).question :: []) ∧
    ((invoke (clarify_with_user_instructions_format
        (get_buffer_string state.messages) today)).need_clarification = false →
      (clarify_with_user invoke today state).goto = RouteTarget.write_research_brief ∧
      (clarify_with_user invoke today state).update =
        Message.mk Role.assistant
          (invoke (clarify_with_user_instructions_format
            (get_buffer_string state.messages) today)).verification :: []) := by
  constructor
  · intro h
    simp [clarify_with_user, h]
  · intro h
    simp [clarify_with_user, h]

/-- Witness for claim C2: both branches at constant decisions over the
empty conversation. -/
theorem clarify_branching_witness :
    (clarify_with_user (fun _ => ClarifyWithUser.mk true ('q' :: []) ('v' :: [])) []
      (ResearchScopeState.mk [] [])).goto = RouteTarget.END ∧
    (clarify_with_user (fun _ => ClarifyWithUser.mk false ('q' :: []) ('v' :: [])) []
      (ResearchScopeState.mk [] [])).goto = RouteTarget.write_research_brief :=
  ⟨((clarify_branching (fun _ => ClarifyWithUser.mk true ('q' :: []) ('v' :: [])) []
      (ResearchScopeState.mk [] [])).1 rfl).1,
   ((clarify_branching (fun _ => ClarifyWithUser.mk false ('q' :: []) ('v' :: [])) []
      (ResearchScopeState.mk [] [])).2 rfl).1⟩

/-- Python truthiness of `os.getenv` results: `None` and the empty
string are falsy. -/
def falsyOptStr : Option Str → Bool
  | none => true
  | some s => s.isEmpty

/-- The `AgentState` fields from `src/helper/state_config.py` that the
writer phase reads or updates; the node appends plain strings as
messages. -/
structure AgentState where
  messages : List Str
  research_brief : Str
  supervisor_messages : List Str
  notes : List Str
  final_report : Str

/-- A LangGraph node's partial state update: only the keys present in
the returned dict are merged into the state. -/
structure StateUpdate where
  messages : Option (List Str)
  research_brief : Option Str
  supervisor_messages : Option (List Str)
  notes : Option (List Str)
  final_report : Option Str

/-- LangGraph's merge of a partial update into `AgentState`: `messages`,
`supervisor_messages` and `notes` have appending reducers
(`add_messages` / `operator.add`), the plain fields are overwritten when
present. -/
def apply_update (st : AgentState) (u : StateUpdate) : AgentState :=
  AgentState.mk
    (st.messages ++ u.messages.getD [])
    (u.research_brief.getD st.research_brief)
    (st.supervisor_messages ++ u.supervisor_messages.getD [])
    (st.notes ++ u.notes.getD [])
    (u.final_report.getD st.final_report)

/-- The timestamped `filename` local of `save_final_report`. -/
def save_filename (now : Str) : Str :=
  ("final_report_").data ++ now ++ (".md").data

/-- The `storage_path` local of `save_final_report`. -/
def save_storage_path (now : Str) : Str :=
  ("nv-line-agent/").data ++ save_filename now

/-- Embedding of `save_final_report` from
`src/phases/research_execution/writer.py`.  Environment lookup and the
storage client are collaborators: `upload` and `get_public_url` return
`Except.error` where the Python calls raise; the `try`/`except` blocks
of the source are the `match`es.  The function is total: it always
returns a plain update, never an exception. -/
def save_final_report (supabase_url supabase_key : Option Str) (now : Str)
    (upload : Str → Str → Except Str Unit)
    (get_public_url : Str → Except Str Str)
    (state : AgentState) : StateUpdate :=
  if falsyOptStr supabase_url || falsyOptStr supabase_key then
    StateUpdate.mk
      (some (("Error: SUPABASE_URL and SUPABASE_KEY must be set in environment variables").data :: []))
      none none none none
  else
    match upload (save_storage_path now) state.final_report with
    | Except.error e =>
        StateUpdate.mk (some ((("Failed to upload to Supabase: ").data ++ e) :: []))
          none none none none
    | Except.ok _ =>
        match get_public_url (save_storage_path now) with
        | Except.ok url =>
            StateUpdate.mk
              (some ((("Final report uploaded to Supabase: ").data ++ url) :: []))
              none none none none
        | Except.error _ =>
            StateUpdate.mk
              (some ((("Final report uploaded to Supabase: ").data ++ save_storage_path now) :: []))
              none none none none

/-- Claim C9: whatever the credentials and the upload outcome,
`save_final_report` returns exactly one user-visible message and touches
no other state key; merging its update leaves `final_report` (and the
notes and brief) unchanged.  Totality of the embedding is the
never-raises guarantee: every collaborator failure is mapped to a
message. -/
theorem save_final_report_preserves_report (supabase_url supabase_key : Option Str)
    (now : Str) (upload : Str → Str → Except Str Unit)
    (get_public_url : Str → Except Str Str) (state : AgentState) :
    (save_final_report supabase_url supabase_key now upload get_public_url state).final_report
      = none ∧
    (save_final_report supabase_url supabase_key now upload get_public_url state).research_brief
      = none ∧
    (save_final_report supabase_url supabase_key now upload get_public_url state).notes
      = none ∧
    (∃ m : Str,
      (save_final_report supabase_url supabase_key now upload get_public_url state).messages
        = some (m :: [])) ∧
    (apply_update state
        (save_final_report supabase_url supabase_key now upload get_public_url state)).final_report
      = state.final_report ∧
    (apply_update state
        (save_final_report supabase_url supabase_key now upload get_public_url state)).notes
      = state.notes := by
  unfold save_final_report apply_update
  split
  · exact ⟨rfl, rfl, rfl, ⟨_, rfl⟩, rfl, by simp⟩
  · split
    · exact ⟨rfl, rfl, rfl, ⟨_, rfl⟩, rfl, by simp⟩
    · split
      · exact ⟨rfl, rfl, rfl, ⟨_, rfl⟩, rfl, by simp⟩
      · exact ⟨rfl, rfl, rfl, ⟨_, rfl⟩, rfl, by simp⟩

end NVLineAgent
